import Mathlib

/-!
Verification of the ensemble ML platform's server actions, stdout transport,
and dashboard metric derivations, shallowly embedded from the TypeScript
sources (`app/actions.ts`, `components/VisualizationDashboard.tsx`).

JavaScript numbers are idealised as rationals (`ℚ`); `undefined`/`null`
number-valued fields are modelled by the three-state type `JNum`; strings are
modelled by `String` or `List Char` as convenient for the property at hand.
-/

set_option maxRecDepth 8000

namespace EnsembleML

/-- A JavaScript number-valued field: `undefined`, `null`, or an actual
number (idealised as a rational). -/
inductive JNum where
  | undef
  | null
  | num (q : ℚ)
deriving DecidableEq

/-- JS `x ?? d` for a number-valued field: nullish values collapse to `d`. -/
def JNum.coalesce (x : JNum) (d : ℚ) : ℚ :=
  match x with
  | .undef => d
  | .null => d
  | .num q => q

/-- JS `x !== undefined`. -/
def JNum.isDefined : JNum → Bool
  | .undef => false
  | _ => true

/-- JS numeric coercion applied to a defined value in arithmetic: `null`
coerces to `0`; a number is itself. (Use only under an `isDefined` guard.) -/
def JNum.toNumber : JNum → ℚ
  | .undef => 0
  | .null => 0
  | .num q => q

/-- JS falsiness of a number-valued field (`!x`): `undefined`, `null` and
`0` are falsy. -/
def JNum.falsy : JNum → Bool
  | .undef => true
  | .null => true
  | .num q => q = 0

/-- JS `x ?? d` keeping the field shape: nullish values are replaced by the
number `d`. -/
def JNum.orElseNum (x : JNum) (d : ℚ) : JNum :=
  match x with
  | .undef => .num d
  | .null => .num d
  | .num q => .num q

/-- An opaque JSON payload value that the server action copies through
without inspecting (precomputed-cache payloads, visualizations, ...). -/
inductive Js where
  | tok (n : Nat)
deriving DecidableEq

/-! ### String primitives mirroring the JavaScript string API -/
/-- `hay` starts with `pat` (character-exact). -/
def strStartsWith : List Char → List Char → Bool
  | _, [] => true
  | [], _ :: _ => false
  | a :: as, b :: bs => a = b && strStartsWith as bs

/-- JS `String.prototype.indexOf` for a substring pattern: index of the first
occurrence, `none` for `-1`. -/
def jsIndexOf (hay pat : List Char) : Option Nat :=
  if strStartsWith hay pat then some 0
  else
    match hay with
    | [] => none
    | _ :: t => (jsIndexOf t pat).map (· + 1)

/-- JS `String.prototype.lastIndexOf` for a single character. -/
def jsLastIndexOf : List Char → Char → Option Nat
  | [], _ => none
  | a :: t, c =>
    match jsLastIndexOf t c with
    | some i => some (i + 1)
    | none => if a = c then some 0 else none

/-- JS `String.prototype.substring`: clamps both indices to the string length
and swaps them when given in the wrong order. -/
def jsSubstring (s : List Char) (a b : Nat) : List Char :=
  let n := s.length
  let a' := min a n
  let b' := min b n
  (s.drop (min a' b')).take (max a' b' - min a' b')

/-- Whitespace recognised by the model of `String.prototype.trim`. -/
def isJsSpace (c : Char) : Bool :=
  c = ' ' || c = '\n' || c = '\t' || c = '\r'

/-- JS `String.prototype.trim`. -/
def jsTrim (s : List Char) : List Char :=
  ((s.dropWhile isJsSpace).reverse.dropWhile isJsSpace).reverse

/-- JS `String.prototype.includes`. -/
def jsIncludes (hay pat : List Char) : Bool :=
  (jsIndexOf hay pat).isSome

/-- JS `String.prototype.toLowerCase` (character-wise). -/
def toLowerList (s : List Char) : List Char :=
  s.map Char.toLower

/-- The character `{` (written via its code point). -/
def lbrace : Char := Char.ofNat 123

/-- The character `}` (written via its code point). -/
def rbrace : Char := Char.ofNat 125

/-! ### `extractJsonFromStdout` (app/actions.ts lines 128–147) -/
/-- The start marker `RESULTS_JSON_START` wrapping the pipeline's JSON. -/
def markerStart : List Char := "RESULTS_JSON_START".toList

/-- The end marker `RESULTS_JSON_END` wrapping the pipeline's JSON. -/
def markerEnd : List Char := "RESULTS_JSON_END".toList

/-- Error thrown when no JSON can be located in the pipeline output. -/
def noJsonMsg : String := "Failed to locate JSON output in Python response"

/-- Embedding of `extractJsonFromStdout`: take the trimmed text between the
first occurrences of the two markers when they appear in order; otherwise
fall back to the first `{` .. last `}` span; otherwise throw. -/
def extractJsonFromStdout (stdout : List Char) : Except String (List Char) :=
  let fallback : Except String (List Char) :=
    match jsIndexOf stdout [lbrace], jsLastIndexOf stdout rbrace with
    | some firstBrace, some lastBrace =>
      if firstBrace < lastBrace then
        .ok (jsSubstring stdout firstBrace (lastBrace + 1))
      else
        .error noJsonMsg
    | some _, none => .error noJsonMsg
    | none, _ => .error noJsonMsg
  match jsIndexOf stdout markerStart, jsIndexOf stdout markerEnd with
  | some jsonStart, some jsonEnd =>
    if jsonStart < jsonEnd then
      .ok (jsTrim (jsSubstring stdout (jsonStart + markerStart.length) jsonEnd))
    else
      fallback
  | some _, none => fallback
  | none, _ => fallback

/-- Concrete stdout sample exercising the marker path of C6. -/
def sampleStdout : List Char :=
  "log line RESULTS_JSON_START \x7b\"a\": 1\x7d RESULTS_JSON_END trailing".toList

/-! ### `executePythonScript` (app/actions.ts lines 58–126)

The spawned process is observed through a sequence of events: stdout data,
stderr data, the `close` event (with an exit code, `none` for `null`), the
`error` event (failure to start), and the firing of the timeout timer.  The
promise's `resolve`/`reject` calls are logged in `settles` so that "settles
exactly once" is a provable statement, and `kill` calls are counted. -/
/-- An observable event of the spawned process. -/
inductive ProcEvent where
  | out (d : String)
  | errOut (d : String)
  | close (code : Option Int)
  | fail (msg : String)
  | timeoutFire
deriving DecidableEq

/-- State of one `executePythonScript` promise. -/
structure ProcState where
  stdout : String
  stderr : String
  completed : Bool
  kills : Nat
  settles : List (Except String String)

/-- Initial promise state. -/
def initProc : ProcState := ⟨"", "", false, 0, []⟩

/-- Rejection message for stdout exceeding the configured cap. -/
def overflowMsg : String := "Python script output exceeded allowed size limit"

/-- Rejection message for the timeout timer firing. -/
def timeoutMsg (tmo : Nat) : String :=
  "Python script timed out after " ++ toString tmo ++ " ms"

/-- Rendering of a nullable exit code in a template literal. -/
def codeText : Option Int → String
  | none => "null"
  | some i => toString i

/-- Rejection message for a non-zero exit code, including the stderr text
(or a placeholder when stderr stayed empty). -/
def exitMsg (code : Option Int) (stderr : String) : String :=
  "Python script exited with code " ++ codeText code ++ ": " ++
    (if stderr = "" then "No stderr output" else stderr)

/-- Rejection message for the `error` event (process failed to start). -/
def startFailMsg (msg : String) : String :=
  "Failed to start Python process: " ++ msg

/-- One event handler step, mirroring the five handlers in
`executePythonScript` (each begins with an `if (completed) return` guard). -/
def stepEvent (cap tmo : Nat) (st : ProcState) (ev : ProcEvent) : ProcState :=
  if st.completed then st
  else
    match ev with
    | .out d =>
      let st' := { st with stdout := st.stdout ++ d }
      if cap < st'.stdout.length then
        { st' with
            completed := true
            kills := st.kills + 1
            settles := st.settles ++ [.error overflowMsg] }
      else st'
    | .errOut d => { st with stderr := st.stderr ++ d }
    | .close code =>
      if code = some 0 then
        { st with
            completed := true
            settles := st.settles ++ [.ok st.stdout] }
      else
        { st with
            completed := true
            settles := st.settles ++ [.error (exitMsg code st.stderr)] }
    | .fail msg =>
      { st with
          completed := true
          settles := st.settles ++ [.error (startFailMsg msg)] }
    | .timeoutFire =>
      { st with
          completed := true
          kills := st.kills + 1
          settles := st.settles ++ [.error (timeoutMsg tmo)] }

/-- Run the promise against a full event trace. -/
def runProc (cap tmo : Nat) (evs : List ProcEvent) : ProcState :=
  evs.foldl (stepEvent cap tmo) initProc

/-! ### `processDataset` (app/actions.ts lines 164–465)

The invocation environment — form data, the two precomputed-cache files, the
dataset file on disk, and the outcome of the Python subprocess — is captured
in `Env`.  File reads, stats and process spawns are logged as `Effect`s so
that "without reading any file / spawning any process" is provable.  The
upstream Python JSON is modelled by the structured types below, following
the repository's own type declarations (metric fields are numbers or
absent/null). -/
/-- Metric fields of one upstream base-model entry
(`metricsObj[key]` in `mapBase`). -/
structure RawMetrics where
  accuracy : JNum := .undef
  precision : JNum := .undef
  recall' : JNum := .undef
  f1_score : JNum := .undef
deriving DecidableEq

/-- One upstream ensemble-method object (`pythonResults.voting`,
`pythonResults.stacking`, or their `ensembles.*` variants). -/
structure PyMethod where
  metrics : Option (List (String × RawMetrics)) := none
  base_models : Option (List (String × RawMetrics)) := none
  feature_importance : Option (List (String × ℚ)) := none
  predictions_sample : Option (List Js) := none
  visualizations : Option Js := none
deriving DecidableEq

/-- The upstream `dataset_info` record (only reached when `isRecord` holds;
`is_classification` stores the field's truthiness). -/
structure DsUp where
  n_samples : Option ℚ := none
  n_features : Option ℚ := none
  feature_names : Option (List String) := none
  is_classification : Bool := false
  n_classes : Option ℚ := none
  class_names : Option (List String) := none
deriving DecidableEq

/-- The parsed Python results when they form a record;
`ensembles_voting`/`ensembles_stacking` model `pythonResults.ensembles?.…`.
`dataset_info = none` models an absent or non-record `dataset_info`
(the case `ensureDatasetInfo` throws on). -/
structure PyRecord where
  dataset_info : Option DsUp := none
  voting : Option PyMethod := none
  stacking : Option PyMethod := none
  ensembles_voting : Option PyMethod := none
  ensembles_stacking : Option PyMethod := none
deriving DecidableEq

/-- Result of `JSON.parse` on the extracted stdout JSON. -/
inductive PyParsed where
  | notRecord
  | record (r : PyRecord)
deriving DecidableEq

/-- Outcome of the `executePythonScript` + extraction + parse stage. -/
inductive PyOutcome where
  | rejected (msg : String)
  | parseFailed
  | parsed (p : PyParsed)
deriving DecidableEq

/-- The `data` field of a parsed precomputed-cache file: either not an
object (property access yields `undefined`) or an object with the three
relevant fields. -/
inductive CacheData where
  | nonObj
  | obj (voting stacking dataset_info : Option Js)
deriving DecidableEq

/-- The `voting` field read off a cache `data` value. -/
def CacheData.votingField : CacheData → Option Js
  | .nonObj => none
  | .obj v _ _ => v

/-- The `stacking` field read off a cache `data` value. -/
def CacheData.stackingField : CacheData → Option Js
  | .nonObj => none
  | .obj _ s _ => s

/-- The `dataset_info` field read off a cache `data` value. -/
def CacheData.dsInfoField : CacheData → Option Js
  | .nonObj => none
  | .obj _ _ d => d

/-- State of one precomputed-cache file: absent on disk, unreadable or
unparsable (read/parse throws), or parsed with a `success` truthiness and an
optional `data` value (`none` models absent/null `data`, whose property
access throws). -/
inductive CacheFile where
  | missing
  | unparsable
  | parsed (success : Bool) (data : Option CacheData)
deriving DecidableEq

/-- The environment of one `processDataset` invocation. -/
structure Env where
  dataset : Option String := none
  metaLearner : Option String := none
  votingCache : CacheFile := .missing
  stackingCache : CacheFile := .missing
  statSize : Option Nat := none
  csvHeaders : List String := []
  csvDataRowCount : Nat := 0
  pythonOutcome : PyOutcome := .parseFailed
deriving DecidableEq

/-- Observable side effects of one invocation, in order. -/
inductive Effect where
  | cacheProbe
  | cacheRead
  | statDataset
  | readDataset
  | spawnPython
deriving DecidableEq

/-! #### Normalised output payloads -/
/-- Normalised base-model metrics: after `mapBase` every field is a number. -/
structure BaseOut where
  accuracy : ℚ
  precision : ℚ
  recall' : ℚ
  f1_score : ℚ
deriving DecidableEq

/-- Normalised ensemble/meta-model performance block. -/
structure PerfOut where
  accuracy : ℚ
  precision : ℚ
  recall' : ℚ
  f1_score : ℚ
  improvement_over_best_base : String
  raw_improvement : ℚ
deriving DecidableEq

/-- One normalised classification side (voting or stacking). -/
structure ClsSide where
  algorithm : String
  base_models : List (String × BaseOut)
  performance : PerfOut
  feature_importance : List (String × ℚ)
  predictions_sample : List Js
  visualizations : Option Js
deriving DecidableEq

/-- The normalised `dataset_info` block. -/
structure DsInfoOut where
  dataset_id : String
  n_samples : Option ℚ
  n_features : Option ℚ
  feature_names : Option (List String)
  is_classification : Bool
  n_classes : Option ℚ
  class_names : Option (List String)
  task_type : String
  target_variable : String
deriving DecidableEq

/-- Normalised regression payload (voting/stacking passed through). -/
structure RegOut where
  voting : Option PyMethod
  stacking : Option PyMethod
  dataset_info : DsInfoOut
deriving DecidableEq

/-- Normalised classification payload. -/
structure ClsOut where
  voting : ClsSide
  stacking : ClsSide
  dataset_info : DsInfoOut
deriving DecidableEq

/-- The `data` of a successful `processDataset` response. -/
inductive PDData where
  | cached (voting stacking dataset_info : Option Js)
  | regression (r : RegOut)
  | classification (r : ClsOut)
deriving DecidableEq

/-- The top-level response of `processDataset`: `{ success: true, data }` or
`{ success: false, error }`. -/
inductive PDReturn where
  | ok (d : PDData)
  | failure (error : String)
deriving DecidableEq

/-- Whether a response is a success whose payload has a present
`dataset_info` (the normalised payloads carry one structurally). -/
def PDReturn.datasetInfoPresent : PDReturn → Bool
  | .failure _ => false
  | .ok (.cached _ _ di) => di.isSome
  | .ok (.regression _) => true
  | .ok (.classification _) => true

/-- Whether a response came from the precomputed-cache path. -/
def PDReturn.isCached : PDReturn → Bool
  | .ok (.cached _ _ _) => true
  | _ => false

/-! #### Validation, lookup and formatting helpers -/
/-- The allowed dataset whitelist. -/
def ALLOWED_DATASETS : List String := ["automobile", "concrete", "loan"]

/-- The allowed meta-learner whitelist. -/
def ALLOWED_META_LEARNERS : List String := ["linear", "random_forest", "xgboost"]

/-- `isValidDataset`. -/
def isValidDataset (d : String) : Bool := ALLOWED_DATASETS.contains d

/-- `isValidMetaLearner`. -/
def isValidMetaLearner (m : String) : Bool := ALLOWED_META_LEARNERS.contains m

/-- Property lookup in an object modelled as an association list (JS object
keys are unique; lookup returns the first binding). -/
def getKey {α : Type} : List (String × α) → String → Option α
  | [], _ => none
  | (k', v) :: t, k => if k' = k then some v else getKey t k

/-- Rounding used by `Number.prototype.toFixed`: to the nearest integer,
ties away from zero (the idealisation of the decimal rendering). -/
def roundHalfAway (x : ℚ) : Int :=
  if 0 ≤ x then ⌊x + 1 / 2⌋ else -⌊-x + 1 / 2⌋

/-- Model of `x.toFixed(1)`. -/
def toFixed1 (q : ℚ) : String :=
  let n := roundHalfAway (q * 10)
  let a := n.natAbs
  (if n < 0 then "-" else "") ++ toString (a / 10) ++ "." ++ toString (a % 10)

/-- The `fmtImp` helper (line 386): format a number as a percentage string
with one decimal (the `isFinite` guard never fires for rationals). -/
def fmtImp (x : ℚ) : String := toFixed1 x ++ "%"

/-- The lower-cased characters of `"ensemble"`. -/
def ensembleChars : List Char := "ensemble".toList

/-- Whether a base-model key is skipped by `mapBase`
(`key.toLowerCase().includes("ensemble")`). -/
def isEnsembleKey (k : String) : Bool :=
  jsIncludes (toLowerList k.toList) ensembleChars

/-- Normalise one base-model entry: each metric field defaults to `0` when
nullish (`metricsObj[key]?.accuracy ?? 0`, …). -/
def normBaseEntry (v : RawMetrics) : BaseOut :=
  ⟨v.accuracy.coalesce 0, v.precision.coalesce 0,
   v.recall'.coalesce 0, v.f1_score.coalesce 0⟩

/-- The `mapBase` helper (lines 355–367): drop every key containing
"ensemble" in any casing, normalise the metric fields of the rest. -/
def mapBase : List (String × RawMetrics) → List (String × BaseOut)
  | [] => []
  | (k, v) :: t =>
    if isEnsembleKey k then mapBase t
    else (k, normBaseEntry v) :: mapBase t

/-- The `bestBase` helper (lines 369–372): max accuracy over the mapped base
models, `0` for an empty mapping.  (`m.accuracy || 0` is the identity on
rationals: it maps `0` to `0` and keeps everything else.) -/
def bestBase (base : List (String × BaseOut)) : ℚ :=
  match base.map (fun kv => kv.2.accuracy) with
  | [] => 0
  | v :: vs => vs.foldl max v

/-- The raw improvement computation (lines 376–378 / 382–384):
`(ensemble.accuracy - bestBase(base)) * 100` when the ensemble accuracy is
defined (a `null` accuracy coerces to `0` in the subtraction), else `0`. -/
def rawImprovement (ens : RawMetrics) (base : List (String × BaseOut)) : ℚ :=
  if ens.accuracy.isDefined then (ens.accuracy.toNumber - bestBase base) * 100
  else 0

/-- Build an `ensemble_performance` / `meta_model_performance` block
(lines 396–403 / 411–418). -/
def buildPerf (ens : RawMetrics) (imp : ℚ) : PerfOut :=
  ⟨ens.accuracy.coalesce 0, ens.precision.coalesce 0, ens.recall'.coalesce 0,
   ens.f1_score.coalesce 0, fmtImp imp, imp⟩

/-- `pythonResults.voting || (pythonResults.ensembles?.voting || {})`
(line 349): objects are truthy, so a present method wins, else the
`ensembles` wrapper's, else an empty object. -/
def resolveMethod (direct fromEnsembles : Option PyMethod) : PyMethod :=
  match direct with
  | some v => v
  | none => fromEnsembles.getD {}

/-- `voting?.metrics || voting?.base_models || {}` (lines 352–353). -/
def methodMetrics (m : PyMethod) : List (String × RawMetrics) :=
  match m.metrics with
  | some l => l
  | none => m.base_models.getD []

/-- `x || null` on a number-valued field: a falsy value (including `0`)
becomes `null`. -/
def orFalsyNull (x : Option ℚ) : Option ℚ :=
  match x with
  | some q => if q = 0 then none else some q
  | none => none

/-- The `target_variable` selection (lines 312–315). -/
def targetVariable (datasetId : String) (headers : List String) : String :=
  if datasetId = "automobile" then "mpg"
  else if datasetId = "concrete" then "concrete_compressive_strength"
  else headers.getLastD ""

/-- Build one normalised classification side (voting or stacking). -/
def buildClsSide (algorithm ensKey : String) (m : PyMethod) : ClsSide :=
  let ms := methodMetrics m
  let base := mapBase ms
  let ens := (getKey ms ensKey).getD {}
  let imp := rawImprovement ens base
  { algorithm := algorithm
    base_models := base
    performance := buildPerf ens imp
    feature_importance := m.feature_importance.getD []
    predictions_sample := m.predictions_sample.getD []
    visualizations := m.visualizations }

/-- The classification normalisation (lines 341–434): `ensureDatasetInfo`
then assembly of the UI payload. -/
def normalizeClassification (datasetId : String) (headers : List String)
    (nSamples nFeatures : ℚ) (tv : String) (r : PyRecord) :
    Except String ClsOut :=
  match r.dataset_info with
  | none => .error "Python results missing dataset_info"
  | some di =>
    let voting := resolveMethod r.voting r.ensembles_voting
    let stacking := resolveMethod r.stacking r.ensembles_stacking
    .ok
      { voting := buildClsSide "Voting Classifier" "Voting Ensemble" voting
        stacking := buildClsSide "Stacking Classifier" "Stacking Ensemble" stacking
        dataset_info :=
          { dataset_id := datasetId
            n_samples := some (di.n_samples.getD nSamples)
            n_features := some (di.n_features.getD nFeatures)
            feature_names := some (di.feature_names.getD headers)
            is_classification := true
            n_classes := di.n_classes
            class_names := di.class_names
            task_type := "classification"
            target_variable := tv } }

/-- The regression normalisation (lines 319–340): `ensureDatasetInfo` then
pass-through of voting/stacking with a rebuilt `dataset_info`. -/
def normalizeRegression (datasetId tv : String) (r : PyRecord) :
    Except String RegOut :=
  match r.dataset_info with
  | none => .error "Python results missing dataset_info"
  | some di =>
    .ok
      { voting := r.voting
        stacking := r.stacking
        dataset_info :=
          { dataset_id := datasetId
            n_samples := di.n_samples
            n_features := di.n_features
            feature_names := di.feature_names
            is_classification := di.is_classification
            n_classes := orFalsyNull di.n_classes
            class_names := di.class_names
            task_type :=
              if di.is_classification then "classification" else "regression"
            target_variable := tv } }

/-! #### Error messages -/
/-- Error for a missing/empty dataset form value. -/
def noDatasetMsg : String := "No dataset selected"

/-- Error for a dataset outside the whitelist. -/
def invalidDatasetMsg (d : String) : String :=
  "Invalid dataset: " ++ d ++ ". Allowed values: automobile, concrete, loan"

/-- Error for a meta-learner outside the whitelist. -/
def invalidMetaMsg (m : String) : String :=
  "Invalid meta-learner: " ++ m ++ ". Allowed values: linear, random_forest, xgboost"

/-- Error surfaced when `statSync` throws or the size check throws inside
the same `try` (the oversize throw is itself caught by the stat `catch`). -/
def statFailMsg : String :=
  "Unable to access dataset file. Please verify the bundled data files are available on the server."

/-- The inner-catch wrapper for everything thrown on the Python path. -/
def mlWrap (msg : String) : String :=
  "ML Processing Failed: " ++ msg ++
    ". Please check if Python and required packages (scikit-learn, xgboost, pandas, numpy) are installed."

/-- Error thrown when stdout JSON extraction or parsing fails. -/
def parseFailMsg : String :=
  "Unable to parse machine learning results. Please check the server logs for details."

/-- The default maximum dataset file size (`MAX_DATASET_MB` default 5, in
bytes; an integer). -/
def MAX_DATASET_FILE_SIZE_BYTES : Nat := 5 * 1024 * 1024

/-- The live (non-cache) path of `processDataset`: stat and read the dataset
file, spawn the Python pipeline, then normalise its results.  All throws are
routed to `failure` exactly as the nested `try`/`catch` blocks do. -/
def livePath (env : Env) (datasetId : String) : PDReturn × List Effect :=
  match env.statSize with
  | none => (.failure statFailMsg, [.statDataset])
  | some size =>
    if MAX_DATASET_FILE_SIZE_BYTES < size then (.failure statFailMsg, [.statDataset])
    else
      let headers := env.csvHeaders
      let nSamples : ℚ := env.csvDataRowCount
      let nFeatures : ℚ := (headers.length : ℚ) - 1
      let tv := targetVariable datasetId headers
      let isLoan := datasetId = "loan"
      let effs : List Effect := [.statDataset, .readDataset, .spawnPython]
      match env.pythonOutcome with
      | .rejected msg => (.failure (mlWrap msg), effs)
      | .parseFailed => (.failure (mlWrap parseFailMsg), effs)
      | .parsed .notRecord =>
        (.failure (mlWrap (if isLoan then "Python classification results are malformed"
          else "Python regression results are malformed")), effs)
      | .parsed (.record r) =>
        if isLoan then
          match normalizeClassification datasetId headers nSamples nFeatures tv r with
          | .error e => (.failure (mlWrap e), effs)
          | .ok c => (.ok (.classification c), effs)
        else
          match normalizeRegression datasetId tv r with
          | .error e => (.failure (mlWrap e), effs)
          | .ok g => (.ok (.regression g), effs)

/-- `(formData.get("meta_learner") as string) || "linear"`: a missing or
empty meta-learner falls back to `"linear"`. -/
def resolvedMeta (env : Env) : String :=
  match env.metaLearner with
  | none => "linear"
  | some m => if m = "" then "linear" else m

/-- The full `processDataset` embedding: validation, the precomputed-cache
attempt, then the live path; the outer `catch` turns every throw into
`{ success: false, error }`. -/
def processDataset (env : Env) : PDReturn × List Effect :=
  match env.dataset with
  | none => (.failure noDatasetMsg, [])
  | some ds =>
    if ds = "" then (.failure noDatasetMsg, [])
    else
      let ml := resolvedMeta env
      if ¬ isValidDataset ds then (.failure (invalidDatasetMsg ds), [])
      else if ¬ isValidMetaLearner ml then (.failure (invalidMetaMsg ml), [])
      else if env.votingCache = .missing ∨ env.stackingCache = .missing then
        let r := livePath env ds
        (r.1, .cacheProbe :: r.2)
      else
        match env.votingCache, env.stackingCache with
        | .parsed vSuccess vData, .parsed sSuccess sData =>
          if vSuccess && sSuccess then
            match vData, sData with
            | some vdat, some sdat =>
              (.ok (.cached vdat.votingField sdat.stackingField
                (vdat.dsInfoField <|> sdat.dsInfoField)),
               [.cacheProbe, .cacheRead])
            | _, _ =>
              let r := livePath env ds
              (r.1, .cacheProbe :: .cacheRead :: r.2)
          else
            let r := livePath env ds
            (r.1, .cacheProbe :: .cacheRead :: r.2)
        | _, _ =>
          let r := livePath env ds
          (r.1, .cacheProbe :: .cacheRead :: r.2)

/-! ### `VisualizationDashboard` metric derivations
(components/VisualizationDashboard.tsx lines 271–405)

`Math.sqrt` is irrational-valued, so the dashboard computations are
parametrised by the square-root function `sqrt`; every statement about the
derived RMSE holds for an arbitrary `sqrt`. -/
/-- Base-model metrics as the dashboard sees them, plus the optional
`isApproximate` flag (absent unless someone sets it). -/
structure DashMetrics where
  r2_score : JNum := .undef
  accuracy : JNum := .undef
  rmse : JNum := .undef
  mae : JNum := .undef
  isApproximate : Option Bool := none
deriving DecidableEq

/-- One row of `predictions_sample` as consumed by the dashboard's
`compute`: each field is `Number(...)` of the raw value, `none` when that is
not finite. -/
structure PredRow where
  actual : Option ℚ := none
  linear_reg : Option ℚ := none
  random_forest : Option ℚ := none
  xgboost : Option ℚ := none
deriving DecidableEq

/-- Result of the dashboard's `compute` helper. -/
structure ComputeOut where
  rmse : ℚ
  mae : ℚ
  isApproximate : Bool
deriving DecidableEq

/-- The `diffs` array of `compute` (lines 316–322): `actual − prediction`
over the rows where both are finite numbers. -/
def computeDiffs (preds : List PredRow) (get : PredRow → Option ℚ) : List ℚ :=
  preds.filterMap fun p =>
    match p.actual, get p with
    | some a, some b => some (a - b)
    | _, _ => none

/-- The dashboard `compute` helper (lines 315–328): approximate RMSE/MAE
from the sample; `{rmse: 0, mae: 0}` without the flag when no usable row
exists, and the flag set on the returned record otherwise. -/
def compute (sqrt : ℚ → ℚ) (preds : List PredRow) (get : PredRow → Option ℚ) :
    ComputeOut :=
  match computeDiffs preds get with
  | [] => { rmse := 0, mae := 0, isApproximate := false }
  | _ :: _ =>
    let diffs := computeDiffs preds get
    let n : ℚ := diffs.length
    let mae := (diffs.map (fun d => |d|)).foldl (· + ·) 0 / n
    let mse := (diffs.map (fun d => d * d)).foldl (· + ·) 0 / n
    { rmse := sqrt mse, mae := mae, isApproximate := true }

/-- Whether `!baseModels?.[k]?.rmse` holds (missing model, or nullish or
zero rmse). -/
def rmseFalsy (bm : List (String × DashMetrics)) (k : String) : Bool :=
  match getKey bm k with
  | none => true
  | some m => m.rmse.falsy

/-- The `needFix` test of `baseModelsEnhanced` (lines 305–309). -/
def needFix (bm : List (String × DashMetrics)) : Bool :=
  rmseFalsy bm "Linear Regression" || rmseFalsy bm "Random Forest" ||
    rmseFalsy bm "XGBoost"

/-- Object-spread update of one key: replace its first binding, or append
the key (JS object keys are unique). -/
def setKey {α : Type} : List (String × α) → String → α → List (String × α)
  | [], k, v => [(k, v)]
  | (k', v') :: t, k, v =>
    if k' = k then (k, v) :: t else (k', v') :: setKey t k v

/-- The per-model enhancement
`{ ...baseModels?.[k], rmse: old.rmse ?? approx.rmse, mae: old.mae ?? approx.mae }`:
note the `isApproximate` flag of `approx` is not copied over. -/
def enhanceModel (bm : List (String × DashMetrics)) (k : String)
    (approx : ComputeOut) : DashMetrics :=
  let old := (getKey bm k).getD {}
  { old with
      rmse := old.rmse.orElseNum approx.rmse
      mae := old.mae.orElseNum approx.mae }

/-- The dashboard `baseModelsEnhanced` block (lines 303–352). -/
def baseModelsEnhanced (sqrt : ℚ → ℚ) (isClassification : Bool)
    (bm : List (String × DashMetrics)) (preds : List PredRow) :
    List (String × DashMetrics) :=
  if isClassification then bm
  else if ¬ needFix bm ∨ preds = [] then bm
  else
    let approxLinear := compute sqrt preds (fun p => p.linear_reg)
    let approxRF := compute sqrt preds (fun p => p.random_forest)
    let approxXGB := compute sqrt preds (fun p => p.xgboost)
    setKey
      (setKey
        (setKey bm "Linear Regression" (enhanceModel bm "Linear Regression" approxLinear))
        "Random Forest" (enhanceModel bm "Random Forest" approxRF))
      "XGBoost" (enhanceModel bm "XGBoost" approxXGB)

/-- `typeof v === 'number'` on a number-valued field. -/
def numberOf : JNum → Option ℚ
  | .num q => some q
  | _ => none

/-- The dashboard's primary model key (line 295–296). -/
def primaryModelKey (isClassification : Bool)
    (bm : List (String × DashMetrics)) : String :=
  if isClassification then
    if (getKey bm "Logistic Regression").isSome then "Logistic Regression"
    else "Linear Regression"
  else "Linear Regression"

/-- The metric field used for improvement comparisons
(`accuracy` for classification, `r2_score` for regression). -/
def dashMetricVal (isClassification : Bool) (m : DashMetrics) : JNum :=
  if isClassification then m.accuracy else m.r2_score

/-- The dashboard's `baseValues` array (lines 374–377): the present numeric
primary metrics of the three named base models, used by the
`derivedImprovement` fallback when the backend omitted `raw_improvement`. -/
def dashBaseValues (isClassification : Bool)
    (bmEnhanced : List (String × DashMetrics)) : List ℚ :=
  [primaryModelKey isClassification bmEnhanced,
    "Random Forest", "XGBoost"].filterMap fun k =>
    (getKey bmEnhanced k).bind fun m => numberOf (dashMetricVal isClassification m)

/-- The dashboard's `derivedImprovement` fallback body (lines 372–386). -/
def derivedImprovement (isClassification : Bool)
    (bmEnhanced : List (String × DashMetrics)) (ensemble : Option DashMetrics) :
    Option (ℚ × String) :=
  let baseValues := dashBaseValues isClassification bmEnhanced
  match ensemble with
  | none => none
  | some e =>
    match numberOf (dashMetricVal isClassification e), baseValues with
    | some ev, v :: vs =>
      some ((ev - (v :: vs).foldl max v) * 100,
        toFixed1 ((ev - (v :: vs).foldl max v) * 100) ++ "%")
    | _, _ => none

/-! ### Dataset loader (spec-modelled)

Modelled from the spec: the dataset loading step of the pipeline lives in
`ml-scripts/run_ensemble.py` / `run_ensemble_analysis.py`, which are not
part of the available sources (only their TypeScript caller is).  Spec §4.1:
"Fails with `DataFormatError` if the target column is absent, if any row has
a different column count than the header, or if the dataset has fewer than a
minimum viable row count (… minimum ~30 rows recommended)." -/
/-- Modelled from the spec: the loader's failure taxonomy entry
`DataFormatError` (§7). -/
inductive DataFormatError where
  | missingTarget (target : String)
  | raggedRow (index : Nat)
  | tooFewRows (count : Nat)
deriving DecidableEq

/-- Modelled from the spec: the minimum viable row count (§4.1, ~30 rows to
support 5-fold cross-validation with non-trivial folds). -/
def MIN_VIABLE_ROWS : Nat := 30

/-- Modelled from the spec: a successfully loaded dataset. -/
structure LoadedDataset where
  headers : List String
  rows : List (List String)
  targetIndex : Nat
deriving DecidableEq

/-- First index satisfying a Boolean test. -/
def findIdxP {α : Type} (p : α → Bool) : List α → Option Nat
  | [] => none
  | a :: t => if p a then some 0 else (findIdxP p t).map (· + 1)

/-- Modelled from the spec: the dataset loading step (§4.1).  Rejects an
absent target column, a row whose column count differs from the header's,
and a dataset below the minimum viable row count. -/
def loadDataset (headers : List String) (rows : List (List String))
    (target : String) : Except DataFormatError LoadedDataset :=
  match findIdxP (fun h => h = target) headers with
  | none => .error (.missingTarget target)
  | some ti =>
    match findIdxP (fun r => r.length ≠ headers.length) rows with
    | some i => .error (.raggedRow i)
    | none =>
      if rows.length < MIN_VIABLE_ROWS then .error (.tooFewRows rows.length)
      else .ok ⟨headers, rows, ti⟩

/-- Sample upstream metrics for one base model (all four fields numbers). -/
def rfSampleMetrics : RawMetrics :=
  { accuracy := .num (9/10)
    precision := .num (8/10)
    recall' := .num (7/10)
    f1_score := .num (3/4) }

/-- Sample upstream metrics object for the C8 witness. -/
def sampleMetricsObj : List (String × RawMetrics) :=
  [("Voting Ensemble", {}), ("my_ENSEMBLE_mix", {}),
    ("Random Forest", rfSampleMetrics)]

/-- Sample upstream method payload for the C2 witness: two base models and
a voting-ensemble entry. -/
def samplePyMethod : PyMethod :=
  { metrics := some [("Logistic Regression", { accuracy := .num (4/5) }),
      ("Random Forest", { accuracy := .num (7/10) }),
      ("Voting Ensemble", { accuracy := .num (9/10) })] }

/-- Environment exhibiting the C1 gap: both cache files parse with
`success: true` and object `data`, but neither `data` carries a
`dataset_info`. -/
def envNoDsInfo : Env :=
  { dataset := some "loan"
    metaLearner := some "linear"
    votingCache := .parsed true (some (.obj (some (Js.tok 1)) none none))
    stackingCache := .parsed true (some (.obj none (some (Js.tok 2)) none)) }

/-- Environment exhibiting the C9 gap: both cache files parse with
`success: true` but carry no `data`; the live path then fails. -/
def envCacheNoData : Env :=
  { dataset := some "loan"
    metaLearner := some "linear"
    votingCache := .parsed true none
    stackingCache := .parsed true none
    statSize := some 10
    csvHeaders := ["a", "b"]
    csvDataRowCount := 3
    pythonOutcome := .rejected "boom" }

/-- A concrete environment where both cache files are valid. -/
def envCacheHit : Env :=
  { dataset := some "automobile"
    metaLearner := none
    votingCache := .parsed true (some (.obj (some (Js.tok 3)) none (some (Js.tok 4))))
    stackingCache := .parsed true (some (.obj none (some (Js.tok 5)) none)) }

/-! ### Claim theorems for the dashboard -/
/-- Base models with an absent RMSE for Linear Regression. -/
def bmApprox : List (String × DashMetrics) :=
  [("Linear Regression", { r2_score := .num (1/2) })]

/-- A one-row predictions sample with finite actual and linear values. -/
def predsApprox : List PredRow :=
  [{ actual := some 3, linear_reg := some 1 }]

/-- When the brace fallback has material to work with, the extractor always
succeeds (regardless of the marker situation). -/
theorem extract_ok_of_braces (s : List Char) (fb lb : Nat)
    (h1 : jsIndexOf s [lbrace] = some fb) (h2 : jsLastIndexOf s rbrace = some lb)
    (h3 : fb < lb) : ∃ t, extractJsonFromStdout s = .ok t := by
  unfold extractJsonFromStdout
  rcases hms : jsIndexOf s markerStart with _ | i <;>
    rcases hme : jsIndexOf s markerEnd with _ | j <;>
      simp only [hms, hme, h1, h2, h3, if_pos]
  · exact ⟨_, rfl⟩
  · exact ⟨_, rfl⟩
  · exact ⟨_, rfl⟩
  · split
    · exact ⟨_, rfl⟩
    · exact ⟨_, rfl⟩

/-- C6: for every stdout in which `RESULTS_JSON_START` first occurs before
`RESULTS_JSON_END` first occurs, `extractJsonFromStdout` returns exactly the
trimmed substring between the end of the first start marker and the first end
marker (so text outside the markers is irrelevant); when the markers are not
both present in order it falls back to the substring from the first `{` to
the last `}`, and it throws only when no such brace pair exists. -/
theorem C6_extractJsonFromStdout_spec :
    (∀ s i j, jsIndexOf s markerStart = some i → jsIndexOf s markerEnd = some j →
      i < j →
      extractJsonFromStdout s =
        .ok (jsTrim (jsSubstring s (i + markerStart.length) j)))
    ∧ (∀ s fb lb, (jsIndexOf s markerStart = none ∨ jsIndexOf s markerEnd = none) →
      jsIndexOf s [lbrace] = some fb → jsLastIndexOf s rbrace = some lb → fb < lb →
      extractJsonFromStdout s = .ok (jsSubstring s fb (lb + 1)))
    ∧ (∀ s e, extractJsonFromStdout s = .error e →
      ¬ ∃ fb lb, jsIndexOf s [lbrace] = some fb ∧ jsLastIndexOf s rbrace = some lb ∧
        fb < lb) := by
  refine ⟨?_, ?_, ?_⟩
  · intro s i j h1 h2 h3
    simp only [extractJsonFromStdout, h1, h2, h3, if_pos]
  · intro s fb lb hmk h1 h2 h3
    rcases hmk with hmk | hmk
    · simp only [extractJsonFromStdout, hmk, h1, h2, h3, if_pos]
    · rcases hms : jsIndexOf s markerStart with _ | i
      · simp only [extractJsonFromStdout, hms, hmk, h1, h2, h3, if_pos]
      · simp only [extractJsonFromStdout, hms, hmk, h1, h2, h3, if_pos]
  · intro s e herr hex
    obtain ⟨fb, lb, h1, h2, h3⟩ := hex
    obtain ⟨t, ht⟩ := extract_ok_of_braces s fb lb h1 h2 h3
    rw [ht] at herr
    cases herr

/-- Witness for C6: on a concrete stdout with log noise around the markers,
the extractor returns the trimmed payload between the markers. -/
theorem C6_extractJsonFromStdout_spec_witness :
    extractJsonFromStdout sampleStdout =
      .ok (jsTrim (jsSubstring sampleStdout (9 + markerStart.length) 37)) :=
  C6_extractJsonFromStdout_spec.1 sampleStdout 9 37 (by decide) (by decide) (by decide)

/-- A completed promise ignores every further event. -/
theorem stepEvent_completed {cap tmo : Nat} {st : ProcState}
    (h : st.completed = true) (ev : ProcEvent) : stepEvent cap tmo st ev = st := by
  simp [stepEvent, h]

/-- A completed promise ignores every further event trace. -/
theorem foldl_completed {cap tmo : Nat} {st : ProcState}
    (h : st.completed = true) (evs : List ProcEvent) :
    evs.foldl (stepEvent cap tmo) st = st := by
  induction evs with
  | nil => rfl
  | cons e t ih => rw [List.foldl_cons, stepEvent_completed h, ih]

/-- One pending step preserves the settlement invariant. -/
theorem stepEvent_pending (cap tmo : Nat) (st : ProcState) (ev : ProcEvent)
    (hc : st.completed = false) (hs : st.settles = []) :
    ((stepEvent cap tmo st ev).completed = false →
      (stepEvent cap tmo st ev).settles = []) ∧
    (stepEvent cap tmo st ev).settles.length ≤ 1 := by
  cases ev with
  | out d =>
    simp only [stepEvent, hc, Bool.false_eq_true, if_false]
    split <;> simp [hs]
  | errOut d => simp [stepEvent, hc, hs]
  | close code =>
    simp only [stepEvent, hc, Bool.false_eq_true, if_false]
    split <;> simp [hs]
  | fail m => simp [stepEvent, hc, hs]
  | timeoutFire => simp [stepEvent, hc, hs]

/-- The basic invariant: a promise that has not completed has settled no
value yet, and a promise never settles more than once. -/
theorem procInvariant (cap tmo : Nat) (evs : List ProcEvent) :
    ∀ st : ProcState, (st.completed = false → st.settles = []) →
      st.settles.length ≤ 1 →
      ((evs.foldl (stepEvent cap tmo) st).completed = false →
        (evs.foldl (stepEvent cap tmo) st).settles = []) ∧
      (evs.foldl (stepEvent cap tmo) st).settles.length ≤ 1 := by
  induction evs with
  | nil => exact fun st h1 h2 => ⟨h1, h2⟩
  | cons e t ih =>
    intro st h1 h2
    rw [List.foldl_cons]
    cases hc : st.completed with
    | false =>
      have hs := h1 hc
      obtain ⟨p1, p2⟩ := stepEvent_pending cap tmo st e hc hs
      exact ih (stepEvent cap tmo st e) p1 p2
    | true =>
      rw [stepEvent_completed hc]
      exact ih st h1 h2

/-- Appending a trace continues the run from the intermediate state. -/
theorem runProc_append (cap tmo : Nat) (a b : List ProcEvent) :
    runProc cap tmo (a ++ b) = b.foldl (stepEvent cap tmo) (runProc cap tmo a) := by
  simp [runProc, List.foldl_append]

/-- If the promise is still pending after `pre` and the next event settles it,
that settlement is final: the whole trace's state is the post-settlement
state. -/
theorem runProc_settle_at (cap tmo : Nat) (pre post : List ProcEvent)
    (ev : ProcEvent)
    (hev : (stepEvent cap tmo (runProc cap tmo pre) ev).completed = true) :
    runProc cap tmo (pre ++ ev :: post) =
      stepEvent cap tmo (runProc cap tmo pre) ev := by
  rw [runProc_append, List.foldl_cons, foldl_completed hev]

/-- A still-pending run has settled nothing. -/
theorem runProc_pending_settles (cap tmo : Nat) (pre : List ProcEvent)
    (h : (runProc cap tmo pre).completed = false) :
    (runProc cap tmo pre).settles = [] :=
  (procInvariant cap tmo pre initProc (fun _ => rfl) (by simp [initProc])).1 h

/-- Any run settles at most once. -/
theorem runProc_settles_le_one (cap tmo : Nat) (evs : List ProcEvent) :
    (runProc cap tmo evs).settles.length ≤ 1 :=
  (procInvariant cap tmo evs initProc (fun _ => rfl) (by simp [initProc])).2

/-- If a run ends having resolved (settled with `ok`), the trace decomposes
as a pending prefix followed by a `close` event with exit code `0`, and the
resolved value is the stdout accumulated over that prefix. -/
theorem settles_ok_decomp (cap tmo : Nat) :
    ∀ (evs : List ProcEvent) (st : ProcState), st.completed = false →
      st.settles = [] → ∀ s,
      (evs.foldl (stepEvent cap tmo) st).settles = [Except.ok s] →
      ∃ pre post, evs = pre ++ .close (some 0) :: post ∧
        (pre.foldl (stepEvent cap tmo) st).completed = false ∧
        s = (pre.foldl (stepEvent cap tmo) st).stdout := by
  intro evs
  induction evs with
  | nil =>
    intro st _ hs s h
    rw [List.foldl_nil, hs] at h
    cases h
  | cons e t ih =>
    intro st hc hs s h
    rw [List.foldl_cons] at h
    by_cases hc' : (stepEvent cap tmo st e).completed = false
    · have hs' : (stepEvent cap tmo st e).settles = [] :=
        (stepEvent_pending cap tmo st e hc hs).1 hc'
      obtain ⟨pre, post, hsplit, hpc, hss⟩ := ih (stepEvent cap tmo st e) hc' hs' s h
      refine ⟨e :: pre, post, by rw [hsplit, List.cons_append], ?_, ?_⟩
      · simpa [List.foldl_cons] using hpc
      · simpa [List.foldl_cons] using hss
    · have hcT : (stepEvent cap tmo st e).completed = true := by
        simpa using hc'
      rw [foldl_completed hcT] at h
      cases e with
      | out d =>
        by_cases hcap : cap < st.stdout.length + d.length
        · simp [stepEvent, hc, hs, hcap, String.length_append] at h
        · simp [stepEvent, hc, hcap, String.length_append] at hcT
      | errOut d => simp [stepEvent, hc] at hcT
      | close code =>
        by_cases h0 : code = some 0
        · subst h0
          simp [stepEvent, hc, hs] at h
          exact ⟨[], t, rfl, hc, h.symm⟩
        · simp [stepEvent, hc, hs, h0] at h
      | fail m => simp [stepEvent, hc, hs] at h
      | timeoutFire => simp [stepEvent, hc, hs] at h

/-- C5: the promise of `executePythonScript` settles at most once; it
resolves with the accumulated stdout exactly when the process closes with
exit code 0 while the promise is still pending (no earlier timeout firing,
stdout overflow, close, or start failure); and on a pending non-zero close
it rejects with a message naming the exit code and stderr, on a pending
timeout firing it rejects with the timeout message after killing the
process, on a pending stdout-cap overflow it rejects with the overflow
message after killing the process, and on a pending start failure it rejects
with the spawn-failure message. -/
theorem C5_executePythonScript_spec (cap tmo : Nat) :
    (∀ evs, (runProc cap tmo evs).settles.length ≤ 1)
    ∧ (∀ evs s, (runProc cap tmo evs).settles = [Except.ok s] ↔
        ∃ pre post, evs = pre ++ .close (some 0) :: post ∧
          (runProc cap tmo pre).completed = false ∧
          s = (runProc cap tmo pre).stdout)
    ∧ (∀ pre post code, code ≠ some 0 →
        (runProc cap tmo pre).completed = false →
        (runProc cap tmo (pre ++ .close code :: post)).settles =
          [.error (exitMsg code (runProc cap tmo pre).stderr)])
    ∧ (∀ pre post, (runProc cap tmo pre).completed = false →
        (runProc cap tmo (pre ++ .timeoutFire :: post)).settles =
          [.error (timeoutMsg tmo)] ∧
        (runProc cap tmo pre).kills <
          (runProc cap tmo (pre ++ .timeoutFire :: post)).kills)
    ∧ (∀ pre post d, (runProc cap tmo pre).completed = false →
        cap < (runProc cap tmo pre).stdout.length + d.length →
        (runProc cap tmo (pre ++ .out d :: post)).settles =
          [.error overflowMsg] ∧
        (runProc cap tmo pre).kills <
          (runProc cap tmo (pre ++ .out d :: post)).kills)
    ∧ (∀ pre post msg, (runProc cap tmo pre).completed = false →
        (runProc cap tmo (pre ++ .fail msg :: post)).settles =
          [.error (startFailMsg msg)]) := by
  refine ⟨runProc_settles_le_one cap tmo, ?_, ?_, ?_, ?_, ?_⟩
  · intro evs s
    constructor
    · intro h
      exact settles_ok_decomp cap tmo evs initProc rfl rfl s h
    · rintro ⟨pre, post, rfl, hpc, rfl⟩
      have hset := runProc_pending_settles cap tmo pre hpc
      rw [runProc_settle_at cap tmo pre post _ (by simp [stepEvent, hpc])]
      simp [stepEvent, hpc, hset]
  · intro pre post code hcode hpc
    have hset := runProc_pending_settles cap tmo pre hpc
    rw [runProc_settle_at cap tmo pre post _ (by simp [stepEvent, hpc, hcode])]
    simp [stepEvent, hpc, hset, hcode]
  · intro pre post hpc
    have hset := runProc_pending_settles cap tmo pre hpc
    rw [runProc_settle_at cap tmo pre post _ (by simp [stepEvent, hpc])]
    simp [stepEvent, hpc, hset]
  · intro pre post d hpc hcap
    have hset := runProc_pending_settles cap tmo pre hpc
    rw [runProc_settle_at cap tmo pre post _
      (by simp [stepEvent, hpc, String.length_append, hcap])]
    simp [stepEvent, hpc, hset, String.length_append, hcap]
  · intro pre post msg hpc
    have hset := runProc_pending_settles cap tmo pre hpc
    rw [runProc_settle_at cap tmo pre post _ (by simp [stepEvent, hpc])]
    simp [stepEvent, hpc, hset]

/-- Witness for C5: a concrete trace — noise on both streams then a clean
exit — resolves with the accumulated stdout. -/
theorem C5_executePythonScript_spec_witness :
    (runProc 100 5000 [.out "hello ", .errOut "warn", .out "world",
        .close (some 0)]).settles = [Except.ok "hello world"] :=
  ((C5_executePythonScript_spec 100 5000).2.1 _ "hello world").mpr
    ⟨[.out "hello ", .errOut "warn", .out "world"], [], rfl, by decide, by decide⟩

/-! ### Shared helper lemmas -/
/-- A list starts with itself (plus anything appended). -/
theorem strStartsWith_append (d b : List Char) : strStartsWith (d ++ b) d = true := by
  induction d with
  | nil => cases b <;> rfl
  | cons c t ih => simp [strStartsWith, ih]

/-- A pattern sitting inside a string is found by `jsIndexOf`. -/
theorem jsIndexOf_isSome_of_middle (a d b : List Char) :
    (jsIndexOf (a ++ (d ++ b)) d).isSome = true := by
  induction a with
  | nil =>
    rw [List.nil_append]
    unfold jsIndexOf
    rw [strStartsWith_append]
    rfl
  | cons c t ih =>
    rw [List.cons_append]
    unfold jsIndexOf
    split
    · rfl
    · simpa using ih

/-- A pattern sitting inside a string is `included` in it. -/
theorem jsIncludes_middle (a d b : List Char) : jsIncludes (a ++ (d ++ b)) d = true := by
  rw [jsIncludes, jsIndexOf_isSome_of_middle]

/-- A whitelisted dataset id is nonempty. -/
theorem isValidDataset_ne_empty {d : String} (h : isValidDataset d = true) :
    d ≠ "" := by
  intro he
  subst he
  exact absurd h (by decide)

/-- `getKey` after `setKey` at the same key. -/
theorem getKey_setKey_self {α : Type} (l : List (String × α)) (k : String) (v : α) :
    getKey (setKey l k v) k = some v := by
  induction l with
  | nil => simp [setKey, getKey]
  | cons kv t ih =>
    obtain ⟨k', v'⟩ := kv
    by_cases h : k' = k
    · simp [setKey, getKey, h]
    · simp [setKey, getKey, h, ih]

/-- `getKey` after `setKey` at a different key. -/
theorem getKey_setKey_other {α : Type} (l : List (String × α)) (k' k : String)
    (v : α) (h : k' ≠ k) : getKey (setKey l k' v) k = getKey l k := by
  induction l with
  | nil => simp [setKey, getKey, h]
  | cons kv t ih =>
    obtain ⟨k0, v0⟩ := kv
    by_cases h0 : k0 = k'
    · subst h0
      simp [setKey, getKey, h]
    · by_cases h1 : k0 = k
      · subst h1
        simp [setKey, getKey, h0]
      · simp [setKey, getKey, h0, h1, ih]

/-- The starting value bounds a left fold of `max`. -/
theorem le_foldl_max (vs : List ℚ) : ∀ v : ℚ, v ≤ vs.foldl max v := by
  induction vs with
  | nil => exact fun v => le_refl v
  | cons x t ih => exact fun v => le_trans (le_max_left v x) (ih (max v x))

/-- Every member bounds a left fold of `max` from below. -/
theorem mem_le_foldl_max (vs : List ℚ) : ∀ v x : ℚ, x ∈ vs →
    x ≤ vs.foldl max v := by
  induction vs with
  | nil => intro v x hx; cases hx
  | cons y t ih =>
    intro v x hx
    rcases List.mem_cons.mp hx with rfl | hmem
    · exact le_trans (le_max_right v x) (le_foldl_max t (max v x))
    · exact ih (max v y) x hmem

/-- A left fold of `max` is the start or one of the members. -/
theorem foldl_max_mem (vs : List ℚ) :
    ∀ v : ℚ, vs.foldl max v = v ∨ vs.foldl max v ∈ vs := by
  induction vs with
  | nil => exact fun v => Or.inl rfl
  | cons x t ih =>
    intro v
    rcases ih (max v x) with h | h
    · rcases max_cases v x with ⟨hm, _⟩ | ⟨hm, _⟩
      · exact Or.inl (by rw [List.foldl_cons, h, hm])
      · exact Or.inr (by rw [List.foldl_cons, h, hm]; exact List.mem_cons_self x t)
    · exact Or.inr (List.mem_cons_of_mem x h)

/-- `bestBase` of a nonempty mapping is a member accuracy and an upper bound
of all accuracies. -/
theorem bestBase_spec (base : List (String × BaseOut)) (hne : base ≠ []) :
    bestBase base ∈ base.map (fun kv => kv.2.accuracy) ∧
      ∀ x ∈ base.map (fun kv => kv.2.accuracy), x ≤ bestBase base := by
  rcases base with _ | ⟨⟨k, b⟩, t⟩
  · exact absurd rfl hne
  · have hb : bestBase ((k, b) :: t) =
        (t.map fun kv => kv.2.accuracy).foldl max b.accuracy := by
      simp [bestBase]
    constructor
    · rcases foldl_max_mem (t.map fun kv => kv.2.accuracy) b.accuracy with h | h
      · rw [List.map_cons, hb, h]
        exact List.mem_cons_self _ _
      · rw [List.map_cons, hb]
        exact List.mem_cons_of_mem _ h
    · intro x hx
      rw [List.map_cons] at hx
      rcases List.mem_cons.mp hx with rfl | hmem
      · rw [hb]; exact le_foldl_max _ _
      · rw [hb]; exact mem_le_foldl_max _ _ _ hmem

/-- `getKey` over `mapBase`: an "ensemble" key never appears. -/
theorem getKey_mapBase_ensemble (m : List (String × RawMetrics)) (k : String)
    (h : isEnsembleKey k = true) : getKey (mapBase m) k = none := by
  induction m with
  | nil => rfl
  | cons kv t ih =>
    obtain ⟨k', v'⟩ := kv
    by_cases hk : isEnsembleKey k'
    · simp [mapBase, hk, ih]
    · have hne : k' ≠ k := fun he => hk (he ▸ h)
      simp [mapBase, hk, getKey, hne, ih]

/-- `getKey` over `mapBase`: a non-"ensemble" key is preserved with its
normalised entry. -/
theorem getKey_mapBase_keep (m : List (String × RawMetrics)) (k : String)
    (v : RawMetrics) (hk : isEnsembleKey k = false) (hv : getKey m k = some v) :
    getKey (mapBase m) k = some (normBaseEntry v) := by
  induction m with
  | nil => cases hv
  | cons kv t ih =>
    obtain ⟨k', v'⟩ := kv
    by_cases he : k' = k
    · subst he
      rw [getKey, if_pos rfl] at hv
      obtain rfl : v' = v := Option.some.injEq _ _ ▸ hv
      simp [mapBase, hk, getKey]
    · rw [getKey, if_neg he] at hv
      by_cases hk' : isEnsembleKey k'
      · simp [mapBase, hk', ih hv]
      · simp [mapBase, hk', getKey, he, ih hv]

/-- `getKey` over `mapBase`: no new keys appear. -/
theorem getKey_mapBase_none (m : List (String × RawMetrics)) (k : String)
    (hv : getKey m k = none) : getKey (mapBase m) k = none := by
  induction m with
  | nil => rfl
  | cons kv t ih =>
    obtain ⟨k', v'⟩ := kv
    by_cases he : k' = k
    · subst he
      rw [getKey, if_pos rfl] at hv
      cases hv
    · rw [getKey, if_neg he] at hv
      by_cases hk' : isEnsembleKey k'
      · simp [mapBase, hk', ih hv]
      · simp [mapBase, hk', getKey, he, ih hv]

/-- The live path always either fails or produces a payload with a present
`dataset_info`. -/
theorem livePath_shape (env : Env) (ds : String) :
    (∃ e, (livePath env ds).1 = .failure e) ∨
      (livePath env ds).1.datasetInfoPresent = true := by
  unfold livePath
  rcases env.statSize with _ | size
  · exact Or.inl ⟨_, rfl⟩
  · dsimp only
    split
    · exact Or.inl ⟨_, rfl⟩
    · rcases env.pythonOutcome with msg | _ | p
      · exact Or.inl ⟨_, rfl⟩
      · exact Or.inl ⟨_, rfl⟩
      · rcases p with _ | r
        · exact Or.inl ⟨_, rfl⟩
        · dsimp only
          split
          · rcases hn : normalizeClassification ds env.csvHeaders
              (env.csvDataRowCount : ℚ) ((env.csvHeaders.length : ℚ) - 1)
              (targetVariable ds env.csvHeaders) r with e | c
            · exact Or.inl ⟨_, rfl⟩
            · exact Or.inr rfl
          · rcases hn : normalizeRegression ds (targetVariable ds env.csvHeaders) r with e | g
            · exact Or.inl ⟨_, rfl⟩
            · exact Or.inr rfl

/-- The live path always stats the dataset file. -/
theorem livePath_stat_mem (env : Env) (ds : String) :
    Effect.statDataset ∈ (livePath env ds).2 := by
  unfold livePath
  rcases env.statSize with _ | size
  · exact List.mem_singleton.mpr rfl
  · dsimp only
    split
    · exact List.mem_singleton.mpr rfl
    · rcases env.pythonOutcome with msg | _ | p
      · exact List.mem_cons_self _ _
      · exact List.mem_cons_self _ _
      · rcases p with _ | r
        · exact List.mem_cons_self _ _
        · dsimp only
          split
          · rcases hn : normalizeClassification ds env.csvHeaders
              (env.csvDataRowCount : ℚ) ((env.csvHeaders.length : ℚ) - 1)
              (targetVariable ds env.csvHeaders) r with e | c <;>
              exact List.mem_cons_self _ _
          · rcases hn : normalizeRegression ds (targetVariable ds env.csvHeaders) r with e | g <;>
              exact List.mem_cons_self _ _

/-! ### Claim theorems for `processDataset` -/
/-- C7: a missing dataset yields `{ success: false }` with no file access or
spawn; a dataset outside the whitelist or a present non-empty meta-learner
outside its whitelist yields `{ success: false }` with an error naming the
invalid value and an empty effect list (no stat, read, or spawn); a missing
meta-learner behaves exactly like `"linear"`. -/
theorem C7_processDataset_validation :
    (∀ env : Env, env.dataset = none →
      processDataset env = (.failure noDatasetMsg, []))
    ∧ (∀ (env : Env) (d : String), env.dataset = some d → d ≠ "" →
      isValidDataset d = false →
      processDataset env = (.failure (invalidDatasetMsg d), []) ∧
        jsIncludes (invalidDatasetMsg d).toList d.toList = true)
    ∧ (∀ (env : Env) (d m : String), env.dataset = some d →
      isValidDataset d = true → env.metaLearner = some m → m ≠ "" →
      isValidMetaLearner m = false →
      processDataset env = (.failure (invalidMetaMsg m), []) ∧
        jsIncludes (invalidMetaMsg m).toList m.toList = true)
    ∧ (∀ env : Env, env.metaLearner = none →
      processDataset env = processDataset { env with metaLearner := some "linear" }) := by
  refine ⟨?_, ?_, ?_, ?_⟩
  · intro env h
    simp [processDataset, h]
  · intro env d h hne hv
    refine ⟨by simp [processDataset, h, hne, hv], ?_⟩
    have : (invalidDatasetMsg d).toList =
        "Invalid dataset: ".toList ++ (d.toList ++ ". Allowed values: automobile, concrete, loan".toList) := by
      show (("Invalid dataset: " ++ d) ++ ". Allowed values: automobile, concrete, loan").data = _
      rw [String.data_append, String.data_append, List.append_assoc]
      rfl
    rw [this]
    exact jsIncludes_middle _ _ _
  · intro env d m h hd hm hmne hmv
    have hres : resolvedMeta env = m := by
      simp [resolvedMeta, hm, hmne]
    refine ⟨?_, ?_⟩
    · simp [processDataset, h, isValidDataset_ne_empty hd, hd, hres, hmv]
    · have : (invalidMetaMsg m).toList =
          "Invalid meta-learner: ".toList ++ (m.toList ++ ". Allowed values: linear, random_forest, xgboost".toList) := by
        show (("Invalid meta-learner: " ++ m) ++ ". Allowed values: linear, random_forest, xgboost").data = _
        rw [String.data_append, String.data_append, List.append_assoc]
        rfl
      rw [this]
      exact jsIncludes_middle _ _ _
  · intro env h
    have : resolvedMeta env = resolvedMeta { env with metaLearner := some "linear" } := by
      simp [resolvedMeta, h]
    cases env
    simp only [Env.metaLearner] at h
    subst h
    rfl

/-- Witness for C7: the invalid dataset id `"cifar"` is rejected with no
effects, and its error message names the value. -/
theorem C7_processDataset_validation_witness :
    processDataset { dataset := some "cifar" } =
      (.failure (invalidDatasetMsg "cifar"), []) ∧
    jsIncludes (invalidDatasetMsg "cifar").toList "cifar".toList = true :=
  C7_processDataset_validation.2.1 { dataset := some "cifar" } "cifar" rfl
    (by decide) (by decide)

/-- C8: in the normalised classification payload, `base_models` is exactly
`mapBase` of the upstream metrics; `mapBase` drops every key containing
"ensemble" in any casing, keeps every other upstream key, adds no key of its
own, and carries each kept key's four metric fields (values preserved when
they are numbers). -/
theorem C8_mapBase_excludes_ensemble :
    (∀ (alg ek : String) (m : PyMethod),
      (buildClsSide alg ek m).base_models = mapBase (methodMetrics m))
    ∧ (∀ (ms : List (String × RawMetrics)) (k : String), isEnsembleKey k = true →
      getKey (mapBase ms) k = none)
    ∧ (∀ (ms : List (String × RawMetrics)) (k : String) (v : RawMetrics),
      isEnsembleKey k = false → getKey ms k = some v →
      getKey (mapBase ms) k = some (normBaseEntry v))
    ∧ (∀ (ms : List (String × RawMetrics)) (k : String), getKey ms k = none →
      getKey (mapBase ms) k = none)
    ∧ (∀ (v : RawMetrics) (a p rc f : ℚ), v.accuracy = .num a →
      v.precision = .num p → v.recall' = .num rc → v.f1_score = .num f →
      normBaseEntry v = ⟨a, p, rc, f⟩) := by
  refine ⟨fun _ _ _ => rfl, getKey_mapBase_ensemble, getKey_mapBase_keep,
    getKey_mapBase_none, ?_⟩
  intro v a p rc f ha hp hr hf
  simp [normBaseEntry, ha, hp, hr, hf, JNum.coalesce]

/-- Witness for C8: a concrete upstream metrics object with two differently
cased ensemble keys and one base model. -/
theorem C8_mapBase_excludes_ensemble_witness :
    getKey (mapBase sampleMetricsObj) "Voting Ensemble" = none ∧
    getKey (mapBase sampleMetricsObj) "my_ENSEMBLE_mix" = none ∧
    getKey (mapBase sampleMetricsObj) "Random Forest" =
      some ⟨9/10, 8/10, 7/10, 3/4⟩ := by
  refine ⟨C8_mapBase_excludes_ensemble.2.1 _ _ (by decide),
    C8_mapBase_excludes_ensemble.2.1 _ _ (by decide), ?_⟩
  rw [C8_mapBase_excludes_ensemble.2.2.1 sampleMetricsObj "Random Forest"
    rfSampleMetrics (by decide) rfl]
  rw [C8_mapBase_excludes_ensemble.2.2.2.2 rfSampleMetrics
    (9/10) (8/10) (7/10) (3/4) rfl rfl rfl rfl]

/-- C10: in the normalised classification payload every metric field is a
number — a missing or null upstream metric becomes `0` in `base_models` and
in the performance blocks, so an absent metric is indistinguishable from a
genuine zero; a missing `feature_importance` becomes the empty mapping and a
missing `predictions_sample` the empty list. -/
theorem C10_metric_totalization :
    (∀ v : RawMetrics,
      ((v.accuracy = .undef ∨ v.accuracy = .null) → (normBaseEntry v).accuracy = 0)
      ∧ ((v.precision = .undef ∨ v.precision = .null) → (normBaseEntry v).precision = 0)
      ∧ ((v.recall' = .undef ∨ v.recall' = .null) → (normBaseEntry v).recall' = 0)
      ∧ ((v.f1_score = .undef ∨ v.f1_score = .null) → (normBaseEntry v).f1_score = 0))
    ∧ (normBaseEntry { accuracy := .null, precision := .null, recall' := .null, f1_score := .null }
        = normBaseEntry { accuracy := .num 0, precision := .num 0, recall' := .num 0, f1_score := .num 0 })
    ∧ (normBaseEntry {} =
        normBaseEntry { accuracy := .num 0, precision := .num 0, recall' := .num 0, f1_score := .num 0 })
    ∧ (∀ (ens : RawMetrics) (imp : ℚ),
      (buildPerf ens imp).accuracy = ens.accuracy.coalesce 0
      ∧ (buildPerf ens imp).precision = ens.precision.coalesce 0
      ∧ (buildPerf ens imp).recall' = ens.recall'.coalesce 0
      ∧ (buildPerf ens imp).f1_score = ens.f1_score.coalesce 0)
    ∧ (∀ (alg ek : String) (m : PyMethod),
      (buildClsSide alg ek m).feature_importance = m.feature_importance.getD []
      ∧ (buildClsSide alg ek m).predictions_sample = m.predictions_sample.getD [])
    ∧ (∀ (datasetId : String) (headers : List String) (nS nF : ℚ) (tv : String)
        (r : PyRecord) (di : DsUp) (c : ClsOut), r.dataset_info = some di →
      normalizeClassification datasetId headers nS nF tv r = .ok c →
      c.voting = buildClsSide "Voting Classifier" "Voting Ensemble"
        (resolveMethod r.voting r.ensembles_voting) ∧
      c.stacking = buildClsSide "Stacking Classifier" "Stacking Ensemble"
        (resolveMethod r.stacking r.ensembles_stacking)) := by
  refine ⟨?_, rfl, rfl, fun ens imp => ⟨rfl, rfl, rfl, rfl⟩,
    fun alg ek m => ⟨rfl, rfl⟩, ?_⟩
  · intro v
    refine ⟨?_, ?_, ?_, ?_⟩ <;>
      (intro h; rcases h with h | h <;> simp [normBaseEntry, h, JNum.coalesce])
  · intro datasetId headers nS nF tv r di c hdi hok
    rw [normalizeClassification, hdi] at hok
    simp only [Except.ok.injEq] at hok
    subst hok
    exact ⟨rfl, rfl⟩

/-- Witness for C10: an all-null upstream entry and an all-zero upstream
entry normalise to the same record, and a method without feature importance
or sample yields the empty defaults. -/
theorem C10_metric_totalization_witness :
    (normBaseEntry { accuracy := .null, precision := .null, recall' := .null, f1_score := .null }).accuracy = 0 ∧
    (buildClsSide "Voting Classifier" "Voting Ensemble" {}).feature_importance = [] ∧
    (buildClsSide "Voting Classifier" "Voting Ensemble" {}).predictions_sample = [] :=
  ⟨(C10_metric_totalization.1 _).1 (Or.inr rfl),
    (C10_metric_totalization.2.2.2.2.1 "Voting Classifier" "Voting Ensemble" {}).1,
    (C10_metric_totalization.2.2.2.2.1 "Voting Classifier" "Voting Ensemble" {}).2⟩

/-- C2: for every normalised classification result whose ensemble entry has
a numeric accuracy and whose base-model mapping is nonempty, the reported
`raw_improvement` is `(ensemble accuracy − max base accuracy) * 100` (the
maximum being over the normalised base models' accuracies) and
`improvement_over_best_base` is that same value formatted as a percentage
string; the dashboard's `derivedImprovement` fallback applies the same
formula (with `accuracy` for classification and `r2_score` for regression)
to the present numeric base metrics. -/
theorem C2_raw_improvement :
    (∀ (alg ek : String) (m : PyMethod) (ens : RawMetrics) (a : ℚ),
      getKey (methodMetrics m) ek = some ens → ens.accuracy = .num a →
      mapBase (methodMetrics m) ≠ [] →
      ∃ M, M ∈ (mapBase (methodMetrics m)).map (fun kv => kv.2.accuracy) ∧
        (∀ x ∈ (mapBase (methodMetrics m)).map (fun kv => kv.2.accuracy), x ≤ M) ∧
        (buildClsSide alg ek m).performance.raw_improvement = (a - M) * 100 ∧
        (buildClsSide alg ek m).performance.improvement_over_best_base =
          fmtImp ((a - M) * 100))
    ∧ (∀ (isC : Bool) (bmE : List (String × DashMetrics)) (e : DashMetrics) (ev : ℚ),
      numberOf (dashMetricVal isC e) = some ev →
      dashBaseValues isC bmE ≠ [] →
      ∃ M, M ∈ dashBaseValues isC bmE ∧
        (∀ x ∈ dashBaseValues isC bmE, x ≤ M) ∧
        derivedImprovement isC bmE (some e) =
          some ((ev - M) * 100, toFixed1 ((ev - M) * 100) ++ "%")) := by
  constructor
  · intro alg ek m ens a hget hacc hne
    obtain ⟨hmem, hub⟩ := bestBase_spec (mapBase (methodMetrics m)) hne
    refine ⟨bestBase (mapBase (methodMetrics m)), hmem, hub, ?_, ?_⟩
    · show (buildPerf ((getKey (methodMetrics m) ek).getD {})
          (rawImprovement ((getKey (methodMetrics m) ek).getD {})
            (mapBase (methodMetrics m)))).raw_improvement = _
      rw [hget]
      simp [buildPerf, rawImprovement, hacc, JNum.isDefined, JNum.toNumber]
    · show (buildPerf ((getKey (methodMetrics m) ek).getD {})
          (rawImprovement ((getKey (methodMetrics m) ek).getD {})
            (mapBase (methodMetrics m)))).improvement_over_best_base = _
      rw [hget]
      simp [buildPerf, rawImprovement, hacc, JNum.isDefined, JNum.toNumber]
  · intro isC bmE e ev hev hne
    rcases hbv : dashBaseValues isC bmE with _ | ⟨v, vs⟩
    · exact absurd hbv hne
    · refine ⟨(v :: vs).foldl max v, ?_, ?_, ?_⟩
      · rw [List.foldl_cons, max_self]
        rcases foldl_max_mem vs v with h | h
        · rw [h]; exact List.mem_cons_self _ _
        · exact List.mem_cons_of_mem _ h
      · intro x hx
        rw [List.foldl_cons, max_self]
        rcases List.mem_cons.mp hx with rfl | hmem
        · exact le_foldl_max _ _
        · exact mem_le_foldl_max _ _ _ hmem
      · rw [derivedImprovement, hbv, hev]

/-- Witness for C2: on a concrete classification payload the improvement is
`(0.9 − 0.8) * 100 = 10`, formatted `"10.0%"`, and the dashboard fallback
derives the same number. -/
theorem C2_raw_improvement_witness :
    (∃ M, M ∈ (mapBase (methodMetrics samplePyMethod)).map (fun kv => kv.2.accuracy) ∧
      (∀ x ∈ (mapBase (methodMetrics samplePyMethod)).map (fun kv => kv.2.accuracy), x ≤ M) ∧
      (buildClsSide "Voting Classifier" "Voting Ensemble" samplePyMethod).performance.raw_improvement
        = (9/10 - M) * 100 ∧
      (buildClsSide "Voting Classifier" "Voting Ensemble" samplePyMethod).performance.improvement_over_best_base
        = fmtImp ((9/10 - M) * 100)) ∧
    (∃ M, M ∈ dashBaseValues true [("Logistic Regression", { accuracy := .num (4/5) })] ∧
      (∀ x ∈ dashBaseValues true [("Logistic Regression", { accuracy := .num (4/5) })], x ≤ M) ∧
      derivedImprovement true [("Logistic Regression", { accuracy := .num (4/5) })]
          (some { accuracy := .num (9/10) }) =
        some ((9/10 - M) * 100, toFixed1 ((9/10 - M) * 100) ++ "%")) :=
  ⟨C2_raw_improvement.1 "Voting Classifier" "Voting Ensemble" samplePyMethod
      { accuracy := .num (9/10) } (9/10) rfl rfl (by decide),
    C2_raw_improvement.2 true _ { accuracy := .num (9/10) } (9/10) rfl
      (by decide)⟩

/-- Counterexample to C1 as stated: `processDataset` can return
`{ success: true }` whose `data` has no `dataset_info` (precomputed-cache
path with both cache payloads lacking it). -/
theorem C1_counterexample :
    (∃ d, (processDataset envNoDsInfo).1 = PDReturn.ok d) ∧
    (processDataset envNoDsInfo).1.datasetInfoPresent = false :=
  ⟨⟨.cached (some (Js.tok 1)) (some (Js.tok 2)) none, rfl⟩, rfl⟩

/-- C1 (amended): every invocation returns exactly one of the two top-level
shapes — an error string, or a success payload with voting and stacking; no
exception escapes (the embedding is total and every throw is routed to the
failure shape); on the live path `dataset_info` is always present, and on
the precomputed-cache path `dataset_info` is the voting file's, or failing
that the stacking file's, and is absent when neither provides one. -/
theorem C1_processDataset_shape (env : Env) :
    (∃ e, (processDataset env).1 = .failure e) ∨
    (processDataset env).1.datasetInfoPresent = true ∨
    (∃ vdat sdat,
      env.votingCache = .parsed true (some vdat) ∧
      env.stackingCache = .parsed true (some sdat) ∧
      (processDataset env).1 = .ok (.cached vdat.votingField sdat.stackingField
        (vdat.dsInfoField <|> sdat.dsInfoField))) := by
  unfold processDataset
  rcases hds : env.dataset with _ | ds
  · exact Or.inl ⟨_, rfl⟩
  dsimp only
  split
  · exact Or.inl ⟨_, rfl⟩
  split
  · exact Or.inl ⟨_, rfl⟩
  split
  · exact Or.inl ⟨_, rfl⟩
  split
  · rcases livePath_shape env ds with ⟨e, he⟩ | h
    · exact Or.inl ⟨e, he⟩
    · exact Or.inr (Or.inl h)
  split
  · next vs vd ss sd hv hs =>
    split
    · next hb =>
      split
      · next _ _ vdat sdat =>
        simp only [Bool.and_eq_true] at hb
        obtain ⟨hvs, hss⟩ := hb
        subst hvs hss
        exact Or.inr (Or.inr ⟨vdat, sdat, hv, hs, rfl⟩)
      · next hvdsd =>
        rcases livePath_shape env ds with ⟨e, he⟩ | h
        · exact Or.inl ⟨e, he⟩
        · exact Or.inr (Or.inl h)
    · rcases livePath_shape env ds with ⟨e, he⟩ | h
      · exact Or.inl ⟨e, he⟩
      · exact Or.inr (Or.inl h)
  · next hother =>
    rcases livePath_shape env ds with ⟨e, he⟩ | h
    · exact Or.inl ⟨e, he⟩
    · exact Or.inr (Or.inl h)

/-- Counterexample to C9 as stated: with both cache files existing and
parsing with `success: true` (but no `data` field), `processDataset` does
not return the cached payload — the `.data.voting` access throws, it falls
through to the live path, spawns Python, and here returns a failure. -/
theorem C9_counterexample :
    (processDataset envCacheNoData).1 = .failure (mlWrap "boom") ∧
    Effect.spawnPython ∈ (processDataset envCacheNoData).2 := by
  refine ⟨rfl, ?_⟩
  show Effect.spawnPython ∈ [Effect.cacheProbe, Effect.cacheRead,
    Effect.statDataset, Effect.readDataset, Effect.spawnPython]
  decide

/-- C9 (amended): when both precomputed files parse with `success: true`
and both carry a `data` value, `processDataset` returns success with
`voting` from the voting file, `stacking` from the stacking file and
`dataset_info` from the voting file's data (or failing that the stacking
file's), without spawning the Python pipeline; when either file is missing,
unparsable, not marked successful, or lacks a `data` value, it falls through
to the live Python path instead of failing. -/
theorem C9_precomputed_cache :
    (∀ (env : Env) (ds : String) (vdat sdat : CacheData),
      env.dataset = some ds → isValidDataset ds = true →
      isValidMetaLearner (resolvedMeta env) = true →
      env.votingCache = .parsed true (some vdat) →
      env.stackingCache = .parsed true (some sdat) →
      processDataset env = (.ok (.cached vdat.votingField sdat.stackingField
        (vdat.dsInfoField <|> sdat.dsInfoField)),
        [.cacheProbe, .cacheRead]) ∧
      Effect.spawnPython ∉ (processDataset env).2)
    ∧ (∀ (env : Env) (ds : String),
      env.dataset = some ds → isValidDataset ds = true →
      isValidMetaLearner (resolvedMeta env) = true →
      (env.votingCache = .missing ∨ env.stackingCache = .missing ∨
        env.votingCache = .unparsable ∨ env.stackingCache = .unparsable ∨
        (∃ vs vd ss sd, env.votingCache = .parsed vs vd ∧
          env.stackingCache = .parsed ss sd ∧
          ((vs && ss) = false ∨ vd = none ∨ sd = none))) →
      (processDataset env).1 = (livePath env ds).1 ∧
      Effect.statDataset ∈ (processDataset env).2) := by
  constructor
  · intro env ds vdat sdat hds hd hm hv hs
    have heq : processDataset env = (.ok (.cached vdat.votingField
        sdat.stackingField (vdat.dsInfoField <|> sdat.dsInfoField)),
        [.cacheProbe, .cacheRead]) := by
      simp [processDataset, hds, isValidDataset_ne_empty hd, hd, hm, hv, hs]
    refine ⟨heq, ?_⟩
    rw [heq]
    show Effect.spawnPython ∉ [Effect.cacheProbe, Effect.cacheRead]
    decide
  · intro env ds hds hd hm hmiss
    have hne := isValidDataset_ne_empty hd
    rcases hmiss with h | h | h | h | ⟨vs, vd, ss, sd, hv, hs, hbad⟩
    · constructor <;>
        simp [processDataset, hds, hne, hd, hm, h, livePath_stat_mem]
    · constructor <;>
        simp [processDataset, hds, hne, hd, hm, h, livePath_stat_mem]
    · rcases hstk : env.stackingCache with _ | _ | ⟨ss, sd⟩
      · constructor <;>
          simp [processDataset, hds, hne, hd, hm, h, hstk, livePath_stat_mem]
      · constructor <;>
          simp [processDataset, hds, hne, hd, hm, h, hstk, livePath_stat_mem]
      · constructor <;>
          simp [processDataset, hds, hne, hd, hm, h, hstk, livePath_stat_mem]
    · rcases hvot : env.votingCache with _ | _ | ⟨vs, vd⟩
      · constructor <;>
          simp [processDataset, hds, hne, hd, hm, h, hvot, livePath_stat_mem]
      · constructor <;>
          simp [processDataset, hds, hne, hd, hm, h, hvot, livePath_stat_mem]
      · constructor <;>
          simp [processDataset, hds, hne, hd, hm, h, hvot, livePath_stat_mem]
    · rcases hbad with hb | hb | hb
      · constructor <;>
          simp [processDataset, hds, hne, hd, hm, hv, hs, hb, livePath_stat_mem]
      · subst hb
        rcases hsd : sd with _ | sdat <;> constructor <;>
          rcases hvs : vs with _ | _ <;> rcases hss : ss with _ | _ <;>
            simp [processDataset, hds, hne, hd, hm, hv, hs, livePath_stat_mem]
      · subst hb
        rcases hvd : vd with _ | vdat <;> constructor <;>
          rcases hvs : vs with _ | _ <;> rcases hss : ss with _ | _ <;>
            simp [processDataset, hds, hne, hd, hm, hv, hs, livePath_stat_mem]

/-- Witness for C9 (amended), cache-hit half: a concrete environment where
both cache files are valid and the cached payload is served with no spawn. -/
theorem C9_precomputed_cache_witness :
    processDataset envCacheHit =
      (.ok (.cached (some (Js.tok 3)) (some (Js.tok 5)) (some (Js.tok 4))),
        [.cacheProbe, .cacheRead]) :=
  (C9_precomputed_cache.1 envCacheHit "automobile"
    (.obj (some (Js.tok 3)) none (some (Js.tok 4)))
    (.obj none (some (Js.tok 5)) none)
    rfl (by decide) (by decide) rfl rfl).1

/-- Counterexample to C3 as stated: the Linear Regression RMSE is absent
upstream and is derived from the sample (the `compute` result is marked
approximate), yet the enhanced base-model record exposes no approximate
flag — `isApproximate` is absent for downstream consumers. -/
theorem C3_counterexample :
    (getKey bmApprox "Linear Regression").map (fun m => m.rmse) =
      some JNum.undef ∧
    getKey (baseModelsEnhanced (fun q => q) false bmApprox predsApprox)
        "Linear Regression" =
      some (enhanceModel bmApprox "Linear Regression"
        (compute (fun q => q) predsApprox (fun p => p.linear_reg))) ∧
    (compute (fun q => q) predsApprox (fun p => p.linear_reg)).isApproximate
      = true ∧
    (enhanceModel bmApprox "Linear Regression"
        (compute (fun q => q) predsApprox (fun p => p.linear_reg))).isApproximate
      = none :=
  ⟨rfl, rfl, rfl, rfl⟩

/-- C3 (amended): in a regression view, whenever any of the three named base
models has a falsy RMSE (missing, null or zero) and the predictions sample
is non-empty, each model's displayed RMSE/MAE is its upstream value when
that is non-nullish and otherwise the sample-derived approximation — RMSE as
`sqrt` of the mean squared (actual − prediction) difference and MAE as the
mean absolute difference over the rows with finite values — but the
`isApproximate` marker of the derivation is not propagated into the
enhanced metrics; no derivation happens when all three RMSEs are truthy
(even if an MAE is absent) or when the sample is empty, and classification
views are untouched. -/
theorem C3_approximation_flag :
    (∀ (sqrt : ℚ → ℚ) (bm : List (String × DashMetrics)) (preds : List PredRow),
      needFix bm = true → preds ≠ [] →
      getKey (baseModelsEnhanced sqrt false bm preds) "Linear Regression" =
        some (enhanceModel bm "Linear Regression"
          (compute sqrt preds (fun p => p.linear_reg))) ∧
      getKey (baseModelsEnhanced sqrt false bm preds) "Random Forest" =
        some (enhanceModel bm "Random Forest"
          (compute sqrt preds (fun p => p.random_forest))) ∧
      getKey (baseModelsEnhanced sqrt false bm preds) "XGBoost" =
        some (enhanceModel bm "XGBoost"
          (compute sqrt preds (fun p => p.xgboost))))
    ∧ (∀ (bm : List (String × DashMetrics)) (k : String) (approx : ComputeOut),
      (enhanceModel bm k approx).rmse =
        ((getKey bm k).getD {}).rmse.orElseNum approx.rmse ∧
      (enhanceModel bm k approx).mae =
        ((getKey bm k).getD {}).mae.orElseNum approx.mae ∧
      (enhanceModel bm k approx).isApproximate =
        ((getKey bm k).getD {}).isApproximate)
    ∧ (∀ (sqrt : ℚ → ℚ) (preds : List PredRow) (get : PredRow → Option ℚ)
        (d : ℚ) (t : List ℚ), computeDiffs preds get = d :: t →
      (compute sqrt preds get).rmse =
        sqrt (((d :: t).map (fun x => x * x)).foldl (· + ·) 0 /
          ((d :: t).length : ℚ)) ∧
      (compute sqrt preds get).mae =
        ((d :: t).map (fun x => |x|)).foldl (· + ·) 0 / ((d :: t).length : ℚ) ∧
      (compute sqrt preds get).isApproximate = true)
    ∧ (∀ (sqrt : ℚ → ℚ) (bm : List (String × DashMetrics)) (preds : List PredRow),
      needFix bm = false ∨ preds = [] →
      baseModelsEnhanced sqrt false bm preds = bm)
    ∧ (∀ (sqrt : ℚ → ℚ) (bm : List (String × DashMetrics)) (preds : List PredRow),
      baseModelsEnhanced sqrt true bm preds = bm) := by
  refine ⟨?_, fun bm k approx => ⟨rfl, rfl, rfl⟩, ?_, ?_, fun _ _ _ => rfl⟩
  · intro sqrt bm preds hfix hpreds
    have hcond : ¬ (¬ needFix bm = true ∨ preds = []) := by
      simp [hfix, hpreds]
    rw [baseModelsEnhanced, if_neg (by simp), if_neg hcond]
    refine ⟨?_, ?_, ?_⟩
    · rw [getKey_setKey_other _ _ _ _ (by decide),
        getKey_setKey_other _ _ _ _ (by decide), getKey_setKey_self]
    · rw [getKey_setKey_other _ _ _ _ (by decide), getKey_setKey_self]
    · rw [getKey_setKey_self]
  · intro sqrt preds get d t h
    rw [compute]
    simp only [h]
    exact ⟨trivial, trivial, trivial⟩
  · intro sqrt bm preds hcond
    rw [baseModelsEnhanced, if_neg (by simp), if_pos]
    rcases hcond with h | h
    · exact Or.inl (by simp [h])
    · exact Or.inr h

/-- Witness for C3 (amended): on the concrete sample, Linear Regression's
RMSE/MAE are filled from the sample-derived approximation. -/
theorem C3_approximation_flag_witness :
    getKey (baseModelsEnhanced (fun q => q) false bmApprox predsApprox)
        "Random Forest" =
      some (enhanceModel bmApprox "Random Forest"
        (compute (fun q => q) predsApprox (fun p => p.random_forest))) :=
  (C3_approximation_flag.1 (fun q => q) bmApprox predsApprox (by decide)
    (by decide)).2.1

/-! ### Claim theorems for the spec-modelled loader -/
/-- If no element satisfies the test, no index is found. -/
theorem findIdxP_eq_none {α : Type} (p : α → Bool) (l : List α)
    (h : ∀ a ∈ l, p a = false) : findIdxP p l = none := by
  induction l with
  | nil => rfl
  | cons a t ih =>
    rw [findIdxP, if_neg (by simp [h a (List.mem_cons_self a t)]),
      ih (fun b hb => h b (List.mem_cons_of_mem a hb))]
    rfl

/-- If some element satisfies the test, an index is found. -/
theorem findIdxP_isSome {α : Type} (p : α → Bool) (l : List α) (a : α)
    (ha : a ∈ l) (hp : p a = true) : (findIdxP p l).isSome = true := by
  induction l with
  | nil => cases ha
  | cons b t ih =>
    rw [findIdxP]
    split
    · rfl
    · next hb =>
      rcases List.mem_cons.mp ha with rfl | hmem
      · exact absurd hp hb
      · have hi := ih hmem
        rcases hh : findIdxP p t with _ | i
        · rw [hh] at hi
          cases hi
        · rfl

/-- The loader rejects a dataset whose target column is absent. -/
theorem loadDataset_err_target (headers : List String)
    (rows : List (List String)) (target : String) (h : target ∉ headers) :
    ∃ e, loadDataset headers rows target = .error e := by
  have hn : findIdxP (fun x => x = target) headers = none :=
    findIdxP_eq_none _ _ fun a ha => by
      simp only [decide_eq_false_iff_not]
      exact fun he => h (he ▸ ha)
  rw [loadDataset, hn]
  exact ⟨_, rfl⟩

/-- The loader rejects a dataset containing a ragged row. -/
theorem loadDataset_err_ragged (headers : List String)
    (rows : List (List String)) (target : String) (r : List String)
    (hr : r ∈ rows) (hlen : r.length ≠ headers.length) :
    ∃ e, loadDataset headers rows target = .error e := by
  rw [loadDataset]
  rcases hfi : findIdxP (fun x => x = target) headers with _ | ti
  · exact ⟨_, rfl⟩
  · have hsome : (findIdxP (fun x : List String => x.length ≠ headers.length) rows).isSome = true :=
      findIdxP_isSome _ _ r hr (by simp [hlen])
    rcases hfr : findIdxP (fun x : List String => x.length ≠ headers.length) rows with _ | i
    · rw [hfr] at hsome
      cases hsome
    · exact ⟨_, rfl⟩

/-- The loader rejects a dataset below the minimum viable row count. -/
theorem loadDataset_err_small (headers : List String)
    (rows : List (List String)) (target : String)
    (h : rows.length < MIN_VIABLE_ROWS) :
    ∃ e, loadDataset headers rows target = .error e := by
  rcases hfi : findIdxP (fun x => x = target) headers with _ | ti
  · exact ⟨_, by rw [loadDataset, hfi]⟩
  · rcases hfr : findIdxP (fun x : List String => x.length ≠ headers.length) rows with _ | i
    · exact ⟨.tooFewRows rows.length, by rw [loadDataset, hfi, hfr]; exact if_pos h⟩
    · exact ⟨.raggedRow i, by rw [loadDataset, hfi, hfr]⟩

/-- The loader accepts a well-formed, large-enough dataset. -/
theorem loadDataset_ok (headers : List String) (rows : List (List String))
    (target : String) (ht : target ∈ headers)
    (hrows : ∀ r ∈ rows, r.length = headers.length)
    (hn : MIN_VIABLE_ROWS ≤ rows.length) :
    ∃ d, loadDataset headers rows target = .ok d := by
  have hsome : (findIdxP (fun x : String => x = target) headers).isSome = true :=
    findIdxP_isSome _ _ target ht (by simp)
  rcases hfi : findIdxP (fun x : String => x = target) headers with _ | ti
  · rw [hfi] at hsome
    cases hsome
  · have hnone : findIdxP (fun x : List String => x.length ≠ headers.length) rows = none :=
      findIdxP_eq_none _ _ fun r hr => by simp [hrows r hr]
    exact ⟨⟨headers, rows, ti⟩,
      by rw [loadDataset, hfi, hnone]; exact if_neg (by omega)⟩

/-- C4 (spec-modelled): the dataset loading step fails with a
`DataFormatError` when the target column is absent, when any data row has a
column count different from the header's, or when the dataset has fewer than
the minimum viable row count (30) — in particular a 25-row dataset is
rejected — and succeeds on a well-formed dataset of at least 30 rows. -/
theorem C4_loadDataset_rejects :
    (∀ (headers : List String) (rows : List (List String)) (target : String),
      target ∉ headers → ∃ e, loadDataset headers rows target = .error e)
    ∧ (∀ (headers : List String) (rows : List (List String)) (target : String)
        (r : List String), r ∈ rows → r.length ≠ headers.length →
      ∃ e, loadDataset headers rows target = .error e)
    ∧ (∀ (headers : List String) (rows : List (List String)) (target : String),
      rows.length < MIN_VIABLE_ROWS →
      ∃ e, loadDataset headers rows target = .error e)
    ∧ (∀ (headers : List String) (rows : List (List String)) (target : String),
      rows.length = 25 → ∃ e, loadDataset headers rows target = .error e)
    ∧ (∀ (headers : List String) (rows : List (List String)) (target : String),
      target ∈ headers → (∀ r ∈ rows, r.length = headers.length) →
      MIN_VIABLE_ROWS ≤ rows.length →
      ∃ d, loadDataset headers rows target = .ok d) :=
  ⟨loadDataset_err_target, loadDataset_err_ragged, loadDataset_err_small,
    fun headers rows target h25 =>
      loadDataset_err_small headers rows target (by rw [h25]; decide),
    loadDataset_ok⟩

/-- Witness for C4: a concrete 25-row two-column dataset is rejected. -/
theorem C4_loadDataset_rejects_witness :
    ∃ e, loadDataset ["x", "t"] (List.replicate 25 ["1", "2"]) "t" =
      .error e :=
  C4_loadDataset_rejects.2.2.2.1 ["x", "t"] (List.replicate 25 ["1", "2"]) "t"
    (by decide)

end EnsembleML
